import Mathlib

/-
  Shallow embedding of the Batch Lifecycle & Reconciliation Engine of the
  "Intimações Notis Pro" delivery-batch tracker.

  The embedded code is the engine logic interleaved with the React UI in the
  source: the Zod validation schemas (`newBatchSchema`,
  `createFinalizeBatchSchema`, `createEditBatchSchema`), the store mutation
  handlers (`addBatch`, `updateBatch`, `deleteBatch`, `deleteDeliveryPerson`),
  the modal submit handlers (`NewBatchModal.handleSubmit`,
  `FinalizeBatchModal.handleSubmit`, `EditBatchModal.handleSubmit`), the
  temporal partitioner (the `dashboardBatches`/`archivedBatches` memo) and the
  aggregator (the `summary`/`performance` memo).

  Modelling conventions:
  - TypeScript `number` fields are modelled as `Int` (the schemas only enforce
    `min(0)`, not integrality; all claim arithmetic is exact).
  - Optional fields (`pgfnDelivered?` etc.) are `Option Int`; the JS idiom
    `x || 0` on a number becomes `Option.getD x 0` (both send `undefined` and
    `0` to `0`).
  - Datetimes are kept as the strings the store holds; wherever the source
    calls `new Date(s).getTime()` the embedding takes an abstract valuation
    `dateVal : String → Int` (milliseconds since epoch), and wherever it calls
    `new Date(s).toISOString()` it takes an abstract `toISO : String → String`.
  - JS truthiness on `batch.totalValue` (a possibly-absent number) is
    `isTruthyNum`: present and nonzero.  Truthiness on `batch.returnDatetime`
    (a possibly-absent string) is `isTruthyStr`: present and nonempty.
  - The collections are `List` values; a React `setX(prev => f prev)` handler
    becomes the pure function `f` on the list.
-/

namespace NotisPro

-- --- CONSTANTS (source: part_001 lines 11-12) ---

def DELIVERY_FEE : Int := 3

def ARCHIVE_DELAY_DAYS : Int := 4

-- --- DATA MODEL (source: types.ts / part_000) ---

inductive Status where
  | pending
  | finalized
deriving DecidableEq, Repr

structure DeliveryPerson where
  id : String
  name : String
  cpf : Option String := none
  address : Option String := none
  phone : Option String := none
  whatsapp : Option String := none
  pix : Option String := none
  route : Option String := none
deriving DecidableEq, Repr

structure Batch where
  id : String
  deliveryPersonId : String
  pgfnInitial : Int
  normalInitial : Int
  departureDatetime : String
  estimatedReturnDate : String
  status : Status
  description : String
  pgfnDelivered : Option Int := none
  pgfnReturned : Option Int := none
  pgfnAbsent : Option Int := none
  normalDelivered : Option Int := none
  normalReturned : Option Int := none
  normalAbsent : Option Int := none
  totalValue : Option Int := none
  returnDatetime : Option String := none
deriving DecidableEq, Repr

/-- JS truthiness of a possibly-absent number: present and nonzero. -/
def isTruthyNum : Option Int → Bool
  | some v => v != 0
  | none => false

/-- JS truthiness of a possibly-absent string: present and nonempty. -/
def isTruthyStr : Option String → Bool
  | some s => s != ""
  | none => false

-- --- ZOD SCHEMAS (source: part_001 lines 37-66) ---

/-- Input of the new-batch form, after Zod coercion of the numeric fields. -/
structure NewBatchInput where
  deliveryPersonId : String
  pgfnInitial : Int
  normalInitial : Int
  departureDatetime : String
  estimatedReturnDate : String
  description : String
deriving DecidableEq, Repr

/-- Test that `newBatchSchema.safeParse` succeeds: the required strings are nonempty,
the two initial counts are `min(0)`, and the `refine` demands at least one of
them strictly positive (part_001 lines 37-47). -/
def newBatchSchemaValid (i : NewBatchInput) : Bool :=
  decide (1 ≤ i.deliveryPersonId.length) &&
  decide (0 ≤ i.pgfnInitial) &&
  decide (0 ≤ i.normalInitial) &&
  decide (1 ≤ i.departureDatetime.length) &&
  decide (1 ≤ i.estimatedReturnDate.length) &&
  (decide (0 < i.pgfnInitial) || decide (0 < i.normalInitial))

/-- Input of the finalize-batch form, after Zod coercion. -/
structure FinalizeInput where
  returnDatetime : String
  pgfnDelivered : Int
  pgfnReturned : Int
  pgfnAbsent : Int
  normalDelivered : Int
  normalReturned : Int
  normalAbsent : Int
deriving DecidableEq, Repr

/-- Test that `createFinalizeBatchSchema(batch).safeParse` succeeds: nonempty return
datetime, six `min(0)` counts, and the `superRefine` conservation checks
against the batch's initial counts (part_001 lines 49-64). -/
def createFinalizeBatchValid (batch : Batch) (d : FinalizeInput) : Bool :=
  decide (1 ≤ d.returnDatetime.length) &&
  decide (0 ≤ d.pgfnDelivered) &&
  decide (0 ≤ d.pgfnReturned) &&
  decide (0 ≤ d.pgfnAbsent) &&
  decide (0 ≤ d.normalDelivered) &&
  decide (0 ≤ d.normalReturned) &&
  decide (0 ≤ d.normalAbsent) &&
  decide (d.pgfnDelivered + d.pgfnReturned + d.pgfnAbsent = batch.pgfnInitial) &&
  decide (d.normalDelivered + d.normalReturned + d.normalAbsent = batch.normalInitial)

/-- Input of the edit-batch form: the finalize input with `returnDatetime`
omitted (part_001 line 66). -/
structure EditInput where
  pgfnDelivered : Int
  pgfnReturned : Int
  pgfnAbsent : Int
  normalDelivered : Int
  normalReturned : Int
  normalAbsent : Int
deriving DecidableEq, Repr

/-- Test that `createEditBatchSchema(batch).safeParse` succeeds: the finalize schema with
the `returnDatetime` field omitted (part_001 line 66). -/
def createEditBatchValid (batch : Batch) (d : EditInput) : Bool :=
  decide (0 ≤ d.pgfnDelivered) &&
  decide (0 ≤ d.pgfnReturned) &&
  decide (0 ≤ d.pgfnAbsent) &&
  decide (0 ≤ d.normalDelivered) &&
  decide (0 ≤ d.normalReturned) &&
  decide (0 ≤ d.normalAbsent) &&
  decide (d.pgfnDelivered + d.pgfnReturned + d.pgfnAbsent = batch.pgfnInitial) &&
  decide (d.normalDelivered + d.normalReturned + d.normalAbsent = batch.normalInitial)

-- --- STORE MUTATION HANDLERS (source: part_001 lines 138-155) ---

/-- Handler `deleteDeliveryPerson(personId)`: filters the person out of the people
list and, in the same handler, filters out every batch whose
`deliveryPersonId` equals the id (part_001 lines 138-142). -/
def deleteDeliveryPerson (personId : String)
    (people : List DeliveryPerson) (batches : List Batch) :
    List DeliveryPerson × List Batch :=
  (people.filter (fun p => p.id != personId),
   batches.filter (fun b => b.deliveryPersonId != personId))

/-- Handler `addBatch(batch)`: prepend the new batch, with a freshly assigned id
(part_001 lines 144-147). -/
def addBatch (newBatch : Batch) (batches : List Batch) : List Batch :=
  newBatch :: batches

/-- Handler `updateBatch(updatedBatch)`: full replace keyed by `id`; batches whose id
differs are mapped to themselves (part_001 lines 149-151). -/
def updateBatch (updatedBatch : Batch) (batches : List Batch) : List Batch :=
  batches.map (fun b => if b.id == updatedBatch.id then updatedBatch else b)

/-- Handler `deleteBatch(batchId)`: keep every batch whose id differs
(part_001 lines 153-155). -/
def deleteBatch (batchId : String) (batches : List Batch) : List Batch :=
  batches.filter (fun b => b.id != batchId)

-- --- MODAL SUBMIT HANDLERS (source: part_001 lines 522-529, 566-575, 609-618) ---

/-- The batch constructed by `NewBatchModal.handleSubmit` on a valid parse:
`{ ...result.data, status: 'pending' }` with the id assigned by `addBatch`
(part_001 lines 522-529 and 144-147). -/
def mkPendingBatch (newId : String) (i : NewBatchInput) : Batch :=
  { id := newId
    deliveryPersonId := i.deliveryPersonId
    pgfnInitial := i.pgfnInitial
    normalInitial := i.normalInitial
    departureDatetime := i.departureDatetime
    estimatedReturnDate := i.estimatedReturnDate
    status := Status.pending
    description := i.description }

/-- Handler `NewBatchModal.handleSubmit`: on a failed parse the handler returns after
setting field errors and the store is untouched; on success it calls
`onAdd` = `addBatch` (part_001 lines 522-529). -/
def newBatchSubmit (newId : String) (i : NewBatchInput)
    (batches : List Batch) : List Batch :=
  if newBatchSchemaValid i then addBatch (mkPendingBatch newId i) batches
  else batches

def totalPaidItemsFinalize (d : FinalizeInput) : Int :=
  d.pgfnDelivered + d.pgfnReturned + d.normalDelivered + d.normalReturned

/-- The batch passed to `onFinalize` by `FinalizeBatchModal.handleSubmit`:
`{ ...batch, status: 'finalized', returnDatetime: new
Date(returnDatetime).toISOString(), ...counts, totalValue: totalPaidItems *
DELIVERY_FEE }` (part_001 lines 566-575). -/
def finalizeResult (toISO : String → String) (batch : Batch)
    (d : FinalizeInput) : Batch :=
  { batch with
    status := Status.finalized
    returnDatetime := some (toISO d.returnDatetime)
    pgfnDelivered := some d.pgfnDelivered
    pgfnReturned := some d.pgfnReturned
    pgfnAbsent := some d.pgfnAbsent
    normalDelivered := some d.normalDelivered
    normalReturned := some d.normalReturned
    normalAbsent := some d.normalAbsent
    totalValue := some (totalPaidItemsFinalize d * DELIVERY_FEE) }

/-- Handler `FinalizeBatchModal.handleSubmit` acting on the batch store: on a failed
parse the store is untouched; on success `onFinalize` = `updateBatch` stores
the finalize result (part_001 lines 566-575 with line 270). -/
def finalizeBatchSubmit (toISO : String → String) (batch : Batch)
    (d : FinalizeInput) (batches : List Batch) : List Batch :=
  if createFinalizeBatchValid batch d then
    updateBatch (finalizeResult toISO batch d) batches
  else batches

def totalPaidItemsEdit (d : EditInput) : Int :=
  d.pgfnDelivered + d.pgfnReturned + d.normalDelivered + d.normalReturned

/-- The batch passed to `onEdit` by `EditBatchModal.handleSubmit`:
`{ ...batch, ...counts, totalValue: totalPaidItems * DELIVERY_FEE }` —
status and returnDatetime are kept from the spread batch
(part_001 lines 609-618). -/
def editResult (batch : Batch) (d : EditInput) : Batch :=
  { batch with
    pgfnDelivered := some d.pgfnDelivered
    pgfnReturned := some d.pgfnReturned
    pgfnAbsent := some d.pgfnAbsent
    normalDelivered := some d.normalDelivered
    normalReturned := some d.normalReturned
    normalAbsent := some d.normalAbsent
    totalValue := some (totalPaidItemsEdit d * DELIVERY_FEE) }

/-- Handler `EditBatchModal.handleSubmit` acting on the batch store: on a failed parse
the store is untouched; on success `onEdit` = `updateBatch` stores the edit
result (part_001 lines 609-618 with line 272). -/
def editBatchSubmit (batch : Batch) (d : EditInput)
    (batches : List Batch) : List Batch :=
  if createEditBatchValid batch d then
    updateBatch (editResult batch d) batches
  else batches

-- --- UI GATING (source: part_001 line 242) ---

inductive ModalKind where
  | finalizeBatch
  | batchDetails
deriving DecidableEq, Repr

/-- The dashboard click handler: `openModal(b.status === 'pending' ?
'finalizeBatch' : 'batchDetails')` (part_001 line 242). -/
def modalForBatchClick (b : Batch) : ModalKind :=
  if b.status = Status.pending then ModalKind.finalizeBatch
  else ModalKind.batchDetails

-- --- TEMPORAL PARTITIONER (source: part_001 lines 180-196) ---

def msPerDay : Int := 1000 * 60 * 60 * 24

/-- A batch is pushed onto the archived list exactly when it is finalized, its
`returnDatetime` is truthy, and `(now - returnDatetime) / (1000*60*60*24) >
ARCHIVE_DELAY_DAYS`; the division is exact (JS floating division compared
against 4), modelled in `ℚ` (part_001 lines 185-193). -/
def isArchivedAt (dateVal : String → Int) (now : Int) (b : Batch) : Bool :=
  if b.status = Status.finalized ∧ isTruthyStr b.returnDatetime then
    match b.returnDatetime with
    | some r =>
        decide ((ARCHIVE_DELAY_DAYS : ℚ) <
          ((now - dateVal r : Int) : ℚ) / ((1000 * 60 * 60 * 24 : Int) : ℚ))
    | none => false
  else false

/-- The sort comparator: `(a, b) => new Date(b.departureDatetime).getTime() -
new Date(a.departureDatetime).getTime()`, i.e. departure descending; JS sort
is stable, modelled by a stable merge sort (part_001 line 194). -/
def sortBatchesByDeparture (dateVal : String → Int) (l : List Batch) : List Batch :=
  l.mergeSort (fun a b => dateVal b.departureDatetime ≤ dateVal a.departureDatetime)

/-- The `main` list of the partitioner memo: every batch not pushed to
`archived`, sorted by departure descending (part_001 lines 180-196). -/
def dashboardBatches (dateVal : String → Int) (now : Int)
    (batches : List Batch) : List Batch :=
  sortBatchesByDeparture dateVal (batches.filter (fun b => !isArchivedAt dateVal now b))

/-- The `archived` list of the partitioner memo (part_001 lines 180-196). -/
def archivedBatches (dateVal : String → Int) (now : Int)
    (batches : List Batch) : List Batch :=
  sortBatchesByDeparture dateVal (batches.filter (fun b => isArchivedAt dateVal now b))

-- --- AGGREGATOR (source: part_001 lines 213-235) ---

structure Summary where
  totalGains : Int
  totalDelivered : Int
  totalReturned : Int
  totalAbsent : Int
deriving DecidableEq, Repr

structure PerfEntry where
  gains : Int
  delivered : Int
  returned : Int
  name : String
deriving DecidableEq, Repr

/-- The `performance` object, keyed by delivery-person id. -/
def Perf : Type := String → Option PerfEntry

/-- Loop `deliveryPeople.forEach(p => performance[p.id] = ...)` assigning the
zero entry to every roster id: later assignments to the same key win
(part_001 line 216). -/
def initPerf (people : List DeliveryPerson) : Perf :=
  people.foldl
    (fun acc p => fun k =>
      if k == p.id then some { gains := 0, delivered := 0, returned := 0, name := p.name }
      else acc k)
    (fun _ => none)

/-- The aggregator's gate on a batch: `batch.status === 'finalized' &&
batch.totalValue` (part_001 line 219). -/
def aggIncludes (b : Batch) : Bool :=
  decide (b.status = Status.finalized) && isTruthyNum b.totalValue

/-- One iteration of the aggregation loop over `dashboardBatches`
(part_001 lines 218-233). -/
def stepAgg (acc : Summary × Perf) (b : Batch) : Summary × Perf :=
  if aggIncludes b then
    let tv := b.totalValue.getD 0
    let delivered := b.pgfnDelivered.getD 0 + b.normalDelivered.getD 0
    let returned := b.pgfnReturned.getD 0 + b.normalReturned.getD 0
    let absent := b.pgfnAbsent.getD 0 + b.normalAbsent.getD 0
    let s : Summary :=
      { totalGains := acc.1.totalGains + tv
        totalDelivered := acc.1.totalDelivered + delivered
        totalReturned := acc.1.totalReturned + returned
        totalAbsent := acc.1.totalAbsent + absent }
    let p : Perf :=
      match acc.2 b.deliveryPersonId with
      | some e =>
          fun k =>
            if k == b.deliveryPersonId then
              some { e with gains := e.gains + tv, delivered := e.delivered + delivered,
                            returned := e.returned + returned }
            else acc.2 k
      | none => acc.2
    (s, p)
  else acc

/-- The `summary`/`performance` memo as a function of its input batch
collection and the people roster (part_001 lines 213-235). -/
def computeSummaryPerformance (batches : List Batch)
    (people : List DeliveryPerson) : Summary × Perf :=
  batches.foldl stepAgg
    ({ totalGains := 0, totalDelivered := 0, totalReturned := 0, totalAbsent := 0 },
     initPerf people)

-- --- DERIVED PREDICATES AND SPEC-SIDE SUMS ---

/-- The conservation invariant of the spec, on a stored batch: once finalized,
delivered + returned + absent equals the initial count in each category. -/
def conserved (b : Batch) : Prop :=
  b.status = Status.finalized →
    (b.pgfnDelivered.getD 0 + b.pgfnReturned.getD 0 + b.pgfnAbsent.getD 0 = b.pgfnInitial ∧
     b.normalDelivered.getD 0 + b.normalReturned.getD 0 + b.normalAbsent.getD 0 = b.normalInitial)

/-- The engine operations that mutate the batch store, as they are wired in
the app component: batch creation, finalize, count edit, batch deletion, and
the batch side of the cascading person deletion. -/
inductive EngineOp where
  | newBatch (newId : String) (i : NewBatchInput)
  | finalize (toISO : String → String) (batch : Batch) (d : FinalizeInput)
  | editCounts (batch : Batch) (d : EditInput)
  | delBatch (batchId : String)
  | delPerson (personId : String)

/-- Effect of an engine operation on the batch store. -/
def applyOp : EngineOp → List Batch → List Batch
  | EngineOp.newBatch newId i, batches => newBatchSubmit newId i batches
  | EngineOp.finalize toISO batch d, batches => finalizeBatchSubmit toISO batch d batches
  | EngineOp.editCounts batch d, batches => editBatchSubmit batch d batches
  | EngineOp.delBatch batchId, batches => deleteBatch batchId batches
  | EngineOp.delPerson personId, batches =>
      (deleteDeliveryPerson personId [] batches).2

/-- Stored total value of a batch, absent read as 0. -/
def batchTotalValue (b : Batch) : Int := b.totalValue.getD 0

/-- Delivered count of a batch across both categories, absent fields read
as 0. -/
def batchDelivered (b : Batch) : Int :=
  b.pgfnDelivered.getD 0 + b.normalDelivered.getD 0

/-- Returned count of a batch across both categories. -/
def batchReturned (b : Batch) : Int :=
  b.pgfnReturned.getD 0 + b.normalReturned.getD 0

/-- Absent count of a batch across both categories. -/
def batchAbsent (b : Batch) : Int :=
  b.pgfnAbsent.getD 0 + b.normalAbsent.getD 0

/-- Sum of `f` over the members of `l` selected by `p`. -/
def sumOver (p : Batch → Bool) (f : Batch → Int) (l : List Batch) : Int :=
  ((l.filter p).map f).sum

/-- Selector for finalized batches. -/
def isFinalizedBatch (b : Batch) : Bool := decide (b.status = Status.finalized)

/-- The system summary as the spec words it: sums taken over all finalized
batches in the input set, of total value, delivered, returned and absent
counts. -/
def summaryOfFinalized (l : List Batch) : Summary :=
  { totalGains := sumOver isFinalizedBatch batchTotalValue l
    totalDelivered := sumOver isFinalizedBatch batchDelivered l
    totalReturned := sumOver isFinalizedBatch batchReturned l
    totalAbsent := sumOver isFinalizedBatch batchAbsent l }

/-- The system summary over the batches the aggregation loop actually counts:
finalized batches whose stored `totalValue` is present and nonzero. -/
def summaryOfCounted (l : List Batch) : Summary :=
  { totalGains := sumOver aggIncludes batchTotalValue l
    totalDelivered := sumOver aggIncludes batchDelivered l
    totalReturned := sumOver aggIncludes batchReturned l
    totalAbsent := sumOver aggIncludes batchAbsent l }

/-- Selector for the finalized batches of the courier with id `k`. -/
def courierFinalized (k : String) (b : Batch) : Bool :=
  isFinalizedBatch b && b.deliveryPersonId == k

/-- Selector for the counted batches of the courier with id `k`. -/
def courierCounted (k : String) (b : Batch) : Bool :=
  aggIncludes b && b.deliveryPersonId == k

/-- The per-courier summary entry as the spec words it: payable value,
delivered count and returned count summed over exactly that courier's
finalized batches in the input set. -/
def perfEntryOfFinalized (k : String) (nm : String) (l : List Batch) : PerfEntry :=
  { gains := sumOver (courierFinalized k) batchTotalValue l
    delivered := sumOver (courierFinalized k) batchDelivered l
    returned := sumOver (courierFinalized k) batchReturned l
    name := nm }

/-- A batch collection is engine-shaped when every finalized batch in it has
non-negative delivered/returned counts and carries the derived
`totalValue = (delivered + returned over both categories) * DELIVERY_FEE`,
as the finalize and edit handlers always store. -/
def WellFormedBatches (l : List Batch) : Prop :=
  ∀ b ∈ l, b.status = Status.finalized →
    0 ≤ b.pgfnDelivered.getD 0 ∧ 0 ≤ b.pgfnReturned.getD 0 ∧
    0 ≤ b.normalDelivered.getD 0 ∧ 0 ≤ b.normalReturned.getD 0 ∧
    b.totalValue = some ((b.pgfnDelivered.getD 0 + b.pgfnReturned.getD 0 +
      b.normalDelivered.getD 0 + b.normalReturned.getD 0) * DELIVERY_FEE)

instance : DecidablePred conserved := fun b => by
  unfold conserved; infer_instance

instance (l : List Batch) : Decidable (WellFormedBatches l) := by
  unfold WellFormedBatches; infer_instance

-- --- CONCRETE EXAMPLE DATA (used by witnesses and counterexamples) ---

/-- A pending example batch. -/
def exPending : Batch :=
  { id := "b1", deliveryPersonId := "p1", pgfnInitial := 10, normalInitial := 0
    departureDatetime := "2024-01-01T08:00", estimatedReturnDate := "2024-01-03"
    status := Status.pending, description := "" }

/-- The example finalized batch of the spec: `pgfnInitial = 10`, finalized with
7 delivered, 2 returned, 1 absent, `totalValue = 27`. -/
def exFinalized : Batch :=
  { id := "b1", deliveryPersonId := "p1", pgfnInitial := 10, normalInitial := 0
    departureDatetime := "2024-01-01T08:00", estimatedReturnDate := "2024-01-03"
    status := Status.finalized, description := ""
    pgfnDelivered := some 7, pgfnReturned := some 2, pgfnAbsent := some 1
    normalDelivered := some 0, normalReturned := some 0, normalAbsent := some 0
    totalValue := some 27, returnDatetime := some "2024-01-03T09:00" }

/-- A finalized batch every item of which was reported absent: conservation
holds and its stored `totalValue` is `0`. -/
def exAllAbsent : Batch :=
  { id := "b2", deliveryPersonId := "p1", pgfnInitial := 2, normalInitial := 0
    departureDatetime := "2024-01-02T08:00", estimatedReturnDate := "2024-01-04"
    status := Status.finalized, description := ""
    pgfnDelivered := some 0, pgfnReturned := some 0, pgfnAbsent := some 2
    normalDelivered := some 0, normalReturned := some 0, normalAbsent := some 0
    totalValue := some 0, returnDatetime := some "2024-01-04T09:00" }

/-- An example courier. -/
def exPerson : DeliveryPerson := { id := "p1", name := "Ana" }

/-- A second courier, with no batches. -/
def exPerson2 : DeliveryPerson := { id := "p2", name := "Bruno" }

/-- A batch whose id does not occur in the single-batch example stores. -/
def exForeign : Batch := { exPending with id := "zzz" }

/-- A pending batch belonging to the second courier. -/
def exOtherCourierBatch : Batch :=
  { exPending with id := "b3", deliveryPersonId := "p2" }

/-- A valid creation input: ten PGFN items, no normal items. -/
def exNewInput : NewBatchInput :=
  { deliveryPersonId := "p1", pgfnInitial := 10, normalInitial := 0
    departureDatetime := "2024-01-01T08:00"
    estimatedReturnDate := "2024-01-03", description := "" }

/-- A concrete date valuation sending every datetime string to epoch 0. -/
def zeroDateVal : String → Int := fun _ => 0

/-- The finalize input of the spec's worked example: 7 delivered, 2 returned,
1 absent PGFN items out of 10, no normal items. -/
def exFinInput : FinalizeInput :=
  { returnDatetime := "2024-01-03T09:00", pgfnDelivered := 7, pgfnReturned := 2
    pgfnAbsent := 1, normalDelivered := 0, normalReturned := 0, normalAbsent := 0 }

/-- A balanced count edit of the example batch. -/
def exEditInput : EditInput :=
  { pgfnDelivered := 8, pgfnReturned := 1, pgfnAbsent := 1
    normalDelivered := 0, normalReturned := 0, normalAbsent := 0 }

/-- A finalize input violating PGFN conservation against `exPending`
(5 + 0 + 0 differs from the initial 10). -/
def exBadFinInput : FinalizeInput :=
  { returnDatetime := "2024-01-03T09:00", pgfnDelivered := 5, pgfnReturned := 0
    pgfnAbsent := 0, normalDelivered := 0, normalReturned := 0, normalAbsent := 0 }

/-- A second, balanced finalize input for `exFinalized`, with counts that
differ from the stored ones. -/
def exRefinalizeInput : FinalizeInput :=
  { returnDatetime := "2024-02-02T00:00", pgfnDelivered := 0, pgfnReturned := 9
    pgfnAbsent := 1, normalDelivered := 0, normalReturned := 0, normalAbsent := 0 }

-- --- HELPER LEMMAS ---

/-- Any member of the store after `updateBatch` is the replacement batch or an
original member. -/
theorem mem_updateBatch {u : Batch} {l : List Batch} {x : Batch}
    (hx : x ∈ updateBatch u l) : x = u ∨ x ∈ l := by
  unfold updateBatch at hx
  rcases List.mem_map.mp hx with ⟨a, ha, hax⟩
  by_cases h : (a.id == u.id) = true
  · left; rw [← hax, if_pos h]
  · right; rw [← hax, if_neg h]; exact ha

/-- Two store members with the same id are equal when the stored ids are
pairwise distinct. -/
theorem eq_of_id_eq_of_nodup {l : List Batch}
    (hnd : (l.map Batch.id).Nodup) {x y : Batch}
    (hx : x ∈ l) (hy : y ∈ l) (h : x.id = y.id) : x = y :=
  List.inj_on_of_nodup_map hnd hx hy h

/-- Unfolding `sumOver` across a cons cell. -/
theorem sumOver_cons (p : Batch → Bool) (f : Batch → Int) (b : Batch)
    (l : List Batch) :
    sumOver p f (b :: l) = (if p b then f b else 0) + sumOver p f l := by
  unfold sumOver
  by_cases h : p b = true <;> simp [List.filter_cons, h]

-- --- CLAIM THEOREMS ---

/-- Claim C2: after every successful finalize and every successful edit of a
finalized batch's counts, the stored `totalValue` equals
`(pgfnDelivered + pgfnReturned + normalDelivered + normalReturned) *
DELIVERY_FEE` with `DELIVERY_FEE = 3` a process-wide constant; the absent
counts do not occur in the formula, so they never contribute. -/
theorem finalize_edit_total_value
    (toISO : String → String) (batch : Batch) (d : FinalizeInput)
    (e : EditInput) (batches : List Batch) :
    (finalizeResult toISO batch d).totalValue =
      some ((d.pgfnDelivered + d.pgfnReturned + d.normalDelivered +
        d.normalReturned) * DELIVERY_FEE) ∧
    (editResult batch e).totalValue =
      some ((e.pgfnDelivered + e.pgfnReturned + e.normalDelivered +
        e.normalReturned) * DELIVERY_FEE) ∧
    DELIVERY_FEE = 3 ∧
    (createFinalizeBatchValid batch d = true →
      finalizeBatchSubmit toISO batch d batches =
        updateBatch (finalizeResult toISO batch d) batches) ∧
    (createEditBatchValid batch e = true →
      editBatchSubmit batch e batches = updateBatch (editResult batch e) batches) := by
  refine ⟨rfl, rfl, rfl, ?_, ?_⟩
  · intro hv
    unfold finalizeBatchSubmit
    rw [if_pos hv]
  · intro hv
    unfold editBatchSubmit
    rw [if_pos hv]

/-- Witness for C2: the spec's worked example, 7 delivered and 2 returned PGFN
items at fee 3 give a stored total value of 27, and the valid finalize is
accepted into the store. -/
theorem finalize_edit_total_value_witness :
    (finalizeResult id exPending exFinInput).totalValue = some 27 ∧
    finalizeBatchSubmit id exPending exFinInput [exPending] =
      updateBatch (finalizeResult id exPending exFinInput) [exPending] := by
  have h := finalize_edit_total_value id exPending exFinInput exEditInput [exPending]
  exact ⟨h.1, h.2.2.2.1 (by decide)⟩

/-- Claim C3: batch creation succeeds only when both initial counts satisfy
`min(0)` and at least one is strictly positive; an input with both initial
counts zero always fails validation and leaves the store unchanged. -/
theorem creation_positive_count_rule
    (newId : String) (i : NewBatchInput) (batches : List Batch) :
    (newBatchSubmit newId i batches ≠ batches →
      0 ≤ i.pgfnInitial ∧ 0 ≤ i.normalInitial ∧
        (0 < i.pgfnInitial ∨ 0 < i.normalInitial)) ∧
    (i.pgfnInitial = 0 → i.normalInitial = 0 →
      newBatchSubmit newId i batches = batches) := by
  constructor
  · intro hne
    by_cases h : newBatchSchemaValid i = true
    · unfold newBatchSchemaValid at h
      simp only [Bool.and_eq_true, Bool.or_eq_true, decide_eq_true_eq] at h
      exact ⟨h.1.1.1.1.2, h.1.1.1.2, h.2⟩
    · exfalso
      apply hne
      unfold newBatchSubmit
      rw [if_neg h]
  · intro h0 h1
    unfold newBatchSubmit
    rw [if_neg]
    unfold newBatchSchemaValid
    simp [h0, h1]

/-- Witness for C3: a creation input with both initial counts zero is
rejected and the store is unchanged, while the condition extraction applies to
a successful creation. -/
theorem creation_positive_count_rule_witness :
    newBatchSubmit "b9" { exNewInput with pgfnInitial := 0 } [] = [] ∧
    (0 ≤ exNewInput.pgfnInitial ∧ 0 ≤ exNewInput.normalInitial ∧
      (0 < exNewInput.pgfnInitial ∨ 0 < exNewInput.normalInitial)) := by
  have h1 := creation_positive_count_rule "b9" { exNewInput with pgfnInitial := 0 } []
  have h2 := creation_positive_count_rule "b9" exNewInput []
  exact ⟨h1.2 rfl rfl, h2.1 (by decide)⟩

/-- Claim C4: deleting a person id present in the store removes every person
with that id from the people collection and, in the same step, removes exactly
the batches whose `deliveryPersonId` equals it: no surviving batch references
the id, every batch with a different reference survives, and nothing new
appears. -/
theorem cascade_delete_exact
    (pid : String) (people : List DeliveryPerson) (batches : List Batch)
    (_hpid : pid ∈ people.map DeliveryPerson.id) :
    (∀ p ∈ (deleteDeliveryPerson pid people batches).1, p.id ≠ pid) ∧
    (∀ b ∈ (deleteDeliveryPerson pid people batches).2,
      b.deliveryPersonId ≠ pid) ∧
    (∀ b ∈ batches, b.deliveryPersonId ≠ pid →
      b ∈ (deleteDeliveryPerson pid people batches).2) ∧
    (∀ b ∈ (deleteDeliveryPerson pid people batches).2, b ∈ batches) := by
  unfold deleteDeliveryPerson
  refine ⟨?_, ?_, ?_, ?_⟩
  · intro p hp
    have := (List.mem_filter.mp hp).2
    simpa using this
  · intro b hb
    have := (List.mem_filter.mp hb).2
    simpa using this
  · intro b hb hne
    exact List.mem_filter.mpr ⟨hb, by simpa using hne⟩
  · intro b hb
    exact (List.mem_filter.mp hb).1

/-- Witness for C4: deleting courier p1 removes the courier and its batch and
keeps a batch of another courier. -/
theorem cascade_delete_exact_witness :
    (deleteDeliveryPerson "p1" [exPerson, exPerson2]
      [exPending, exOtherCourierBatch]).1 = [exPerson2] ∧
    (deleteDeliveryPerson "p1" [exPerson, exPerson2]
      [exPending, exOtherCourierBatch]).2 = [exOtherCourierBatch] ∧
    exOtherCourierBatch ∈ (deleteDeliveryPerson "p1" [exPerson, exPerson2]
      [exPending, exOtherCourierBatch]).2 := by
  have h := cascade_delete_exact "p1" [exPerson, exPerson2]
    [exPending, exOtherCourierBatch] (by decide)
  exact ⟨by decide, by decide,
    h.2.2.1 exOtherCourierBatch (by decide) (by decide)⟩

/-- Counterexample to C8: on an id absent from the store, `updateBatch` and
`deleteBatch` return the store unchanged and signal nothing — their codomain
(the embedding of `setBatches(prev => ...)`) carries no failure value at all,
so the update of `exForeign` (id "zzz") against a store holding only id "b1"
and the deletion of id "zzz" both silently succeed as no-ops, contradicting
the claimed `NotFound` structured failure. -/
theorem update_delete_absent_silent :
    updateBatch exForeign [exPending] = [exPending] ∧
    deleteBatch "zzz" [exPending] = [exPending] := by decide

/-- Claim C8 amended: for every id absent from the batch store, `updateBatch`
and `deleteBatch` leave the store unchanged; no error is produced — the
operations silently succeed as no-ops. -/
theorem update_delete_absent_noop
    (ub : Batch) (did : String) (batches : List Batch) :
    ((∀ b ∈ batches, b.id ≠ ub.id) → updateBatch ub batches = batches) ∧
    ((∀ b ∈ batches, b.id ≠ did) → deleteBatch did batches = batches) := by
  constructor
  · intro h
    unfold updateBatch
    conv_rhs => rw [← List.map_id batches]
    apply List.map_congr_left
    intro b hb
    rw [if_neg]
    · rfl
    · simpa using h b hb
  · intro h
    unfold deleteBatch
    apply List.filter_eq_self.mpr
    intro b hb
    simpa using h b hb

/-- Witness for the amended C8: the concrete absent id "zzz" leaves the
one-batch store untouched through both operations. -/
theorem update_delete_absent_noop_witness :
    updateBatch exForeign [exFinalized] = [exFinalized] ∧
    deleteBatch "zzz" [exFinalized] = [exFinalized] := by
  have h := update_delete_absent_noop exForeign "zzz" [exFinalized]
  exact ⟨h.1 (by decide), h.2 (by decide)⟩

/-- Claim C10: a successful finalize keeps the batch's id, courier reference,
both initial counts, departure datetime, estimated return date and
description, and rewrites the store by replacing exactly the selected batch
(ids being unique) with the finalize result, leaving every other batch
unchanged in place. -/
theorem finalize_frame
    (toISO : String → String) (batch : Batch) (d : FinalizeInput)
    (batches : List Batch)
    (hv : createFinalizeBatchValid batch d = true)
    (hb : batch ∈ batches)
    (hnd : (batches.map Batch.id).Nodup) :
    ((finalizeResult toISO batch d).id = batch.id ∧
     (finalizeResult toISO batch d).deliveryPersonId = batch.deliveryPersonId ∧
     (finalizeResult toISO batch d).pgfnInitial = batch.pgfnInitial ∧
     (finalizeResult toISO batch d).normalInitial = batch.normalInitial ∧
     (finalizeResult toISO batch d).departureDatetime = batch.departureDatetime ∧
     (finalizeResult toISO batch d).estimatedReturnDate = batch.estimatedReturnDate ∧
     (finalizeResult toISO batch d).description = batch.description) ∧
    finalizeBatchSubmit toISO batch d batches =
      batches.map (fun x => if x = batch then finalizeResult toISO batch d else x) := by
  refine ⟨⟨rfl, rfl, rfl, rfl, rfl, rfl, rfl⟩, ?_⟩
  unfold finalizeBatchSubmit
  rw [if_pos hv]
  unfold updateBatch
  apply List.map_congr_left
  intro x hx
  by_cases hxb : x = batch
  · subst hxb
    rw [if_pos rfl, if_pos]
    simp [finalizeResult]
  · have hid : x.id ≠ batch.id := fun h => hxb (eq_of_id_eq_of_nodup hnd hx hb h)
    rw [if_neg hxb, if_neg]
    simpa [finalizeResult] using hid

/-- Witness for C10: finalizing the example pending batch preserves the frame
fields and replaces exactly that batch in the one-batch store. -/
theorem finalize_frame_witness :
    (finalizeResult id exPending exFinInput).description = exPending.description ∧
    finalizeBatchSubmit id exPending exFinInput [exPending] =
      [finalizeResult id exPending exFinInput] := by
  have h := finalize_frame id exPending exFinInput [exPending]
    (by decide) (by decide) (by decide)
  refine ⟨h.1.2.2.2.2.2.2, ?_⟩
  rw [h.2]
  decide

/-- Claim C1: a finalize or count-edit attempt whose six candidate counts
violate either conservation equation is rejected with the store (hence the
batch's stored fields) unchanged, and every engine operation on the batch
store preserves the invariant that each finalized batch satisfies both
conservation equations. -/
theorem conservation_invariant
    (toISO : String → String) (batch : Batch) (d : FinalizeInput)
    (e : EditInput) (batches : List Batch) (op : EngineOp) :
    ((d.pgfnDelivered + d.pgfnReturned + d.pgfnAbsent ≠ batch.pgfnInitial ∨
      d.normalDelivered + d.normalReturned + d.normalAbsent ≠ batch.normalInitial) →
      finalizeBatchSubmit toISO batch d batches = batches) ∧
    ((e.pgfnDelivered + e.pgfnReturned + e.pgfnAbsent ≠ batch.pgfnInitial ∨
      e.normalDelivered + e.normalReturned + e.normalAbsent ≠ batch.normalInitial) →
      editBatchSubmit batch e batches = batches) ∧
    ((∀ b ∈ batches, conserved b) → ∀ b ∈ applyOp op batches, conserved b) := by
  refine ⟨?_, ?_, ?_⟩
  · intro hviol
    unfold finalizeBatchSubmit
    rw [if_neg]
    intro hv
    unfold createFinalizeBatchValid at hv
    simp only [Bool.and_eq_true, decide_eq_true_eq] at hv
    rcases hviol with hviol | hviol
    · exact hviol hv.1.2
    · exact hviol hv.2
  · intro hviol
    unfold editBatchSubmit
    rw [if_neg]
    intro hv
    unfold createEditBatchValid at hv
    simp only [Bool.and_eq_true, decide_eq_true_eq] at hv
    rcases hviol with hviol | hviol
    · exact hviol hv.1.2
    · exact hviol hv.2
  · intro hall b hb
    cases op with
    | newBatch newId i =>
        simp only [applyOp] at hb
        unfold newBatchSubmit at hb
        by_cases hv : newBatchSchemaValid i = true
        · rw [if_pos hv] at hb
          unfold addBatch at hb
          rcases List.mem_cons.mp hb with hb | hb
          · subst hb
            intro hst
            exact absurd hst (by simp [mkPendingBatch])
          · exact hall b hb
        · rw [if_neg hv] at hb
          exact hall b hb
    | finalize toISO2 batch2 d2 =>
        simp only [applyOp] at hb
        unfold finalizeBatchSubmit at hb
        by_cases hv : createFinalizeBatchValid batch2 d2 = true
        · rw [if_pos hv] at hb
          rcases mem_updateBatch hb with hb | hb
          · subst hb
            intro _
            unfold createFinalizeBatchValid at hv
            simp only [Bool.and_eq_true, decide_eq_true_eq] at hv
            simp only [finalizeResult, Option.getD_some]
            exact ⟨hv.1.2, hv.2⟩
          · exact hall b hb
        · rw [if_neg hv] at hb
          exact hall b hb
    | editCounts batch2 d2 =>
        simp only [applyOp] at hb
        unfold editBatchSubmit at hb
        by_cases hv : createEditBatchValid batch2 d2 = true
        · rw [if_pos hv] at hb
          rcases mem_updateBatch hb with hb | hb
          · subst hb
            intro _
            unfold createEditBatchValid at hv
            simp only [Bool.and_eq_true, decide_eq_true_eq] at hv
            simp only [editResult, Option.getD_some]
            exact ⟨hv.1.2, hv.2⟩
          · exact hall b hb
        · rw [if_neg hv] at hb
          exact hall b hb
    | delBatch bid =>
        simp only [applyOp] at hb
        unfold deleteBatch at hb
        exact hall b (List.mem_filter.mp hb).1
    | delPerson pid =>
        simp only [applyOp] at hb
        unfold deleteDeliveryPerson at hb
        exact hall b (List.mem_filter.mp hb).1

/-- Witness for C1: the unbalanced finalize input is rejected leaving the
store unchanged, and the batch produced by the spec's example finalize
satisfies conservation. -/
theorem conservation_invariant_witness :
    finalizeBatchSubmit id exPending exBadFinInput [exPending] = [exPending] ∧
    conserved (finalizeResult id exPending exFinInput) := by
  have h := conservation_invariant id exPending exBadFinInput exEditInput
    [exPending] (EngineOp.finalize id exPending exFinInput)
  refine ⟨h.1 (Or.inl (by decide)), ?_⟩
  exact h.2.2 (by decide) (finalizeResult id exPending exFinInput) (by decide)

/-- Counterexample to C9: the source has no `AlreadyFinalized` failure — the
finalize submit handler never inspects the batch's status, so invoked on the
already-finalized example batch with balancing counts it succeeds and
overwrites the stored fields instead of failing and leaving them unchanged. -/
theorem refinalize_not_rejected :
    finalizeBatchSubmit id exFinalized exRefinalizeInput [exFinalized]
      ≠ [exFinalized] ∧
    (finalizeResult id exFinalized exRefinalizeInput).pgfnDelivered
      ≠ exFinalized.pgfnDelivered := by decide

/-- Claim C9 amended: the transition to `finalized` happens only through the
finalize operation — creation yields `pending`, a count edit preserves the
status, deletion introduces nothing — and `finalized → pending` never occurs;
a click on an already-finalized batch is routed by the dashboard gate to the
read-only details modal rather than the finalize flow, so its fields stay
unchanged, but no `AlreadyFinalized` failure is produced and the finalize
handler itself performs no status check. -/
theorem finalize_gating
    (toISO : String → String) (bsel : Batch) (dF : FinalizeInput)
    (dE : EditInput) (batches : List Batch) (newId : String)
    (i : NewBatchInput) :
    (bsel.status = Status.finalized →
      modalForBatchClick bsel = ModalKind.batchDetails) ∧
    (finalizeResult toISO bsel dF).status = Status.finalized ∧
    (editResult bsel dE).status = bsel.status ∧
    (mkPendingBatch newId i).status = Status.pending ∧
    (∀ b ∈ finalizeBatchSubmit toISO bsel dF batches,
      b ∈ batches ∨ b = finalizeResult toISO bsel dF) ∧
    (∀ b ∈ editBatchSubmit bsel dE batches,
      b ∈ batches ∨ b = editResult bsel dE) ∧
    (∀ b ∈ deleteBatch bsel.id batches, b ∈ batches) := by
  refine ⟨?_, rfl, rfl, rfl, ?_, ?_, ?_⟩
  · intro hst
    unfold modalForBatchClick
    rw [if_neg]
    rw [hst]
    intro hcontra
    exact absurd hcontra (by decide)
  · intro b hb
    unfold finalizeBatchSubmit at hb
    by_cases hv : createFinalizeBatchValid bsel dF = true
    · rw [if_pos hv] at hb
      rcases mem_updateBatch hb with hb | hb
      · exact Or.inr hb
      · exact Or.inl hb
    · rw [if_neg hv] at hb
      exact Or.inl hb
  · intro b hb
    unfold editBatchSubmit at hb
    by_cases hv : createEditBatchValid bsel dE = true
    · rw [if_pos hv] at hb
      rcases mem_updateBatch hb with hb | hb
      · exact Or.inr hb
      · exact Or.inl hb
    · rw [if_neg hv] at hb
      exact Or.inl hb
  · intro b hb
    unfold deleteBatch at hb
    exact (List.mem_filter.mp hb).1

/-- Witness for the amended C9: the finalized example batch is routed to the
details modal, and a batch present after a count edit of it is either an old
store member or the status-preserving edit result. -/
theorem finalize_gating_witness :
    modalForBatchClick exFinalized = ModalKind.batchDetails ∧
    (editResult exFinalized exEditInput ∈ [exFinalized] ∨
      editResult exFinalized exEditInput = editResult exFinalized exEditInput) := by
  have h := finalize_gating id exFinalized exRefinalizeInput exEditInput
    [exFinalized] "b9" exNewInput
  refine ⟨h.1 rfl, ?_⟩
  exact h.2.2.2.2.2.1 (editResult exFinalized exEditInput) (by decide)

/-- Characterization of the archive test for a finalized batch with a truthy
return datetime: archived exactly when strictly more than the archival delay
has elapsed. -/
theorem isArchivedAt_iff (dateVal : String → Int) (now : Int) (b : Batch)
    (r : String) (hst : b.status = Status.finalized)
    (hr : b.returnDatetime = some r) (hne : r ≠ "") :
    isArchivedAt dateVal now b = true ↔
      ARCHIVE_DELAY_DAYS * msPerDay < now - dateVal r := by
  unfold isArchivedAt
  rw [hr]
  rw [if_pos]
  · simp only [decide_eq_true_eq]
    rw [lt_div_iff₀ (by norm_num)]
    have hc : ((ARCHIVE_DELAY_DAYS : ℚ)) * (((1000 * 60 * 60 * 24 : Int)) : ℚ)
        = (((ARCHIVE_DELAY_DAYS * msPerDay : Int)) : ℚ) := by
      norm_num [ARCHIVE_DELAY_DAYS, msPerDay]
    rw [hc, Int.cast_lt]
  · exact ⟨hst, by simpa [isTruthyStr] using hne⟩

/-- A pending batch never passes the archive test. -/
theorem isArchivedAt_pending (dateVal : String → Int) (now : Int) (b : Batch)
    (hst : b.status = Status.pending) :
    isArchivedAt dateVal now b = false := by
  unfold isArchivedAt
  rw [if_neg]
  rintro ⟨h1, -⟩
  rw [hst] at h1
  exact absurd h1 (by decide)

/-- Claim C5: for every finalized batch with a (truthy) return datetime in
the input collection, the partitioner places it in the archived list exactly
when the elapsed time since the return datetime strictly exceeds the archival
delay of 4 days, and in the active (dashboard) list exactly when the elapsed
time is at most 4 days — so a batch exactly 4 days old is active — and every
pending batch is placed in the active list. -/
theorem temporal_partition
    (dateVal : String → Int) (now : Int) (batches : List Batch) :
    (∀ b ∈ batches, ∀ r, b.status = Status.finalized →
      b.returnDatetime = some r → r ≠ "" →
      ((b ∈ archivedBatches dateVal now batches ↔
          ARCHIVE_DELAY_DAYS * msPerDay < now - dateVal r) ∧
       (b ∈ dashboardBatches dateVal now batches ↔
          now - dateVal r ≤ ARCHIVE_DELAY_DAYS * msPerDay))) ∧
    (∀ b ∈ batches, b.status = Status.pending →
      b ∈ dashboardBatches dateVal now batches) := by
  constructor
  · intro b hb r hst hr hne
    have hiff := isArchivedAt_iff dateVal now b r hst hr hne
    constructor
    · unfold archivedBatches sortBatchesByDeparture
      rw [List.mem_mergeSort, List.mem_filter]
      constructor
      · rintro ⟨-, h⟩
        exact hiff.mp h
      · intro h
        exact ⟨hb, hiff.mpr h⟩
    · unfold dashboardBatches sortBatchesByDeparture
      rw [List.mem_mergeSort, List.mem_filter]
      constructor
      · rintro ⟨-, h⟩
        rw [Bool.not_eq_true'] at h
        rw [← not_lt]
        intro hlt
        rw [hiff.mpr hlt] at h
        exact absurd h (by decide)
      · intro h
        refine ⟨hb, ?_⟩
        rw [Bool.not_eq_true']
        rw [← Bool.not_eq_true]
        intro hT
        exact absurd (hiff.mp hT) (not_lt.mpr h)
  · intro b hb hst
    unfold dashboardBatches sortBatchesByDeparture
    rw [List.mem_mergeSort, List.mem_filter]
    exact ⟨hb, by rw [isArchivedAt_pending dateVal now b hst]; rfl⟩

/-- Witness for C5: with all return datetimes valued at epoch 0, the example
finalized batch is active at exactly 4 days (345600000 ms) and archived one
millisecond later, and the pending example batch is active. -/
theorem temporal_partition_witness :
    exFinalized ∈ dashboardBatches zeroDateVal 345600000 [exFinalized] ∧
    exFinalized ∈ archivedBatches zeroDateVal 345600001 [exFinalized] ∧
    exPending ∈ dashboardBatches zeroDateVal 345600000 [exPending] := by
  have h1 := temporal_partition zeroDateVal 345600000 [exFinalized]
  have h2 := temporal_partition zeroDateVal 345600001 [exFinalized]
  have h3 := temporal_partition zeroDateVal 345600000 [exPending]
  refine ⟨?_, ?_, ?_⟩
  · exact ((h1.1 exFinalized (by decide) "2024-01-03T09:00" rfl rfl
      (by decide)).2).mpr (by decide)
  · exact ((h2.1 exFinalized (by decide) "2024-01-03T09:00" rfl rfl
      (by decide)).1).mpr (by decide)
  · exact h3.2 exPending (by decide) rfl

/-- The summary component of one aggregation step. -/
theorem stepAgg_fst (acc : Summary × Perf) (b : Batch) :
    (stepAgg acc b).1 =
      if aggIncludes b then
        { totalGains := acc.1.totalGains + batchTotalValue b
          totalDelivered := acc.1.totalDelivered + batchDelivered b
          totalReturned := acc.1.totalReturned + batchReturned b
          totalAbsent := acc.1.totalAbsent + batchAbsent b }
      else acc.1 := by
  unfold stepAgg batchTotalValue batchDelivered batchReturned batchAbsent
  by_cases h : aggIncludes b = true
  · simp [h]
  · simp [h]

/-- The summary component of the aggregation fold accumulates the sums over
the counted batches. -/
theorem foldAgg_fst (l : List Batch) (s : Summary) (P : Perf) :
    (l.foldl stepAgg (s, P)).1 =
      { totalGains := s.totalGains + sumOver aggIncludes batchTotalValue l
        totalDelivered := s.totalDelivered + sumOver aggIncludes batchDelivered l
        totalReturned := s.totalReturned + sumOver aggIncludes batchReturned l
        totalAbsent := s.totalAbsent + sumOver aggIncludes batchAbsent l } := by
  induction l generalizing s P with
  | nil =>
      cases s
      simp [sumOver]
  | cons b l ih =>
      rw [List.foldl_cons, ← Prod.mk.eta (p := stepAgg (s, P) b), ih, stepAgg_fst]
      by_cases h : aggIncludes b = true
      · rw [if_pos h]
        simp only [sumOver_cons, if_pos h, Summary.mk.injEq]
        omega
      · rw [if_neg h]
        simp only [sumOver_cons, if_neg h, Summary.mk.injEq]
        omega

/-- The aggregation fold never creates a performance entry for an unknown
key. -/
theorem foldAgg_snd_none (l : List Batch) (s : Summary) (P : Perf) (k : String)
    (hPk : P k = none) :
    (l.foldl stepAgg (s, P)).2 k = none := by
  induction l generalizing s P with
  | nil => exact hPk
  | cons b l ih =>
      rw [List.foldl_cons, ← Prod.mk.eta (p := stepAgg (s, P) b)]
      apply ih
      unfold stepAgg
      by_cases hinc : aggIncludes b = true
      · rw [if_pos hinc]
        cases hPd : P b.deliveryPersonId with
        | none => simpa [hPd] using hPk
        | some e0 =>
            simp only [hPd]
            by_cases hk : (k == b.deliveryPersonId) = true
            · rw [beq_iff_eq] at hk
              rw [hk] at hPk
              rw [hPk] at hPd
              exact absurd hPd (by simp)
            · simpa [hk] using hPk
      · rw [if_neg hinc]
        exact hPk

/-- The aggregation fold adds, to an existing performance entry, the sums of
the counted batches of that courier. -/
theorem foldAgg_snd_some (l : List Batch) (s : Summary) (P : Perf) (k : String)
    (e : PerfEntry) (hPk : P k = some e) :
    (l.foldl stepAgg (s, P)).2 k =
      some { gains := e.gains + sumOver (courierCounted k) batchTotalValue l
             delivered := e.delivered + sumOver (courierCounted k) batchDelivered l
             returned := e.returned + sumOver (courierCounted k) batchReturned l
             name := e.name } := by
  induction l generalizing s P e with
  | nil =>
      cases e
      simp [sumOver, hPk]
  | cons b l ih =>
      rw [List.foldl_cons, ← Prod.mk.eta (p := stepAgg (s, P) b)]
      by_cases hinc : aggIncludes b = true
      · cases hPd : P b.deliveryPersonId with
        | none =>
            have hsnd : (stepAgg (s, P) b).2 = P := by
              unfold stepAgg
              rw [if_pos hinc]
              simp [hPd]
            have hkd : (b.deliveryPersonId == k) = false := by
              rw [beq_eq_false_iff_ne]
              intro h
              rw [← h] at hPk
              rw [hPk] at hPd
              exact absurd hPd (by simp)
            have hcc : courierCounted k b = false := by
              unfold courierCounted
              rw [hkd]
              simp
            rw [hsnd]
            rw [ih ((stepAgg (s, P) b).1) P e hPk]
            simp [sumOver_cons, hcc]
        | some e0 =>
            have hsnd : (stepAgg (s, P) b).2 = fun k' =>
                if k' == b.deliveryPersonId then
                  some { gains := e0.gains + batchTotalValue b
                         delivered := e0.delivered + batchDelivered b
                         returned := e0.returned + batchReturned b
                         name := e0.name }
                else P k' := by
              unfold stepAgg batchTotalValue batchDelivered batchReturned
              rw [if_pos hinc]
              simp only [hPd]
            by_cases hk : (k == b.deliveryPersonId) = true
            · have hkeq : k = b.deliveryPersonId := beq_iff_eq.mp hk
              have he : e = e0 := by
                rw [hkeq] at hPk
                rw [hPk] at hPd
                exact Option.some_inj.mp hPd
              have hcc : courierCounted k b = true := by
                unfold courierCounted
                rw [hinc, hkeq]
                simp
              have hPk' : (stepAgg (s, P) b).2 k =
                  some { gains := e0.gains + batchTotalValue b
                         delivered := e0.delivered + batchDelivered b
                         returned := e0.returned + batchReturned b
                         name := e0.name } := by
                rw [hsnd]
                simp [hk]
              rw [ih ((stepAgg (s, P) b).1) ((stepAgg (s, P) b).2) _ hPk']
              subst he
              simp only [sumOver_cons, hcc, if_true, Option.some.injEq,
                PerfEntry.mk.injEq]
              exact ⟨by omega, by omega, by omega, trivial⟩
            · have hPk' : (stepAgg (s, P) b).2 k = some e := by
                rw [hsnd]
                simp only [hk, Bool.false_eq_true, if_false]
                exact hPk
              have hkd : (b.deliveryPersonId == k) = false := by
                rw [beq_eq_false_iff_ne]
                intro h
                exact hk (beq_iff_eq.mpr h.symm)
              have hcc : courierCounted k b = false := by
                unfold courierCounted
                rw [hkd]
                simp
              rw [ih ((stepAgg (s, P) b).1) ((stepAgg (s, P) b).2) _ hPk']
              simp [sumOver_cons, hcc]
      · have hsnd : (stepAgg (s, P) b).2 = P := by
          unfold stepAgg
          rw [if_neg hinc]
        have hinc' : aggIncludes b = false := Bool.eq_false_iff.mpr hinc
        have hcc : courierCounted k b = false := by
          unfold courierCounted
          rw [hinc']
          simp
        rw [hsnd]
        rw [ih ((stepAgg (s, P) b).1) P e hPk]
        simp [sumOver_cons, hcc]

/-- The roster initialisation fold leaves keys matching nobody untouched. -/
theorem initPerf_foldl_notin (people : List DeliveryPerson) (acc : Perf)
    (k : String) (h : ∀ p ∈ people, p.id ≠ k) :
    (people.foldl
      (fun acc p => fun k' =>
        if k' == p.id then
          some { gains := 0, delivered := 0, returned := 0, name := p.name }
        else acc k')
      acc) k = acc k := by
  induction people generalizing acc with
  | nil => rfl
  | cons q rest ih =>
      rw [List.foldl_cons]
      rw [ih _ (fun p hp => h p (List.mem_cons_of_mem _ hp))]
      have hkq : (k == q.id) = false :=
        beq_eq_false_iff_ne.mpr (Ne.symm (h q (List.mem_cons_self _ _)))
      simp [hkq]

/-- The roster initialisation fold assigns the zero entry to each person's
id, when ids are pairwise distinct. -/
theorem initPerf_foldl_mem (people : List DeliveryPerson) (acc : Perf)
    (p : DeliveryPerson) (hnd : (people.map DeliveryPerson.id).Nodup)
    (hp : p ∈ people) :
    (people.foldl
      (fun acc p => fun k' =>
        if k' == p.id then
          some { gains := 0, delivered := 0, returned := 0, name := p.name }
        else acc k')
      acc) p.id =
      some { gains := 0, delivered := 0, returned := 0, name := p.name } := by
  induction people generalizing acc with
  | nil => cases hp
  | cons q rest ih =>
      rw [List.foldl_cons]
      rcases List.mem_cons.mp hp with hpq | hpr
      · subst hpq
        have hnot : ∀ x ∈ rest, x.id ≠ p.id := by
          rw [List.map_cons, List.nodup_cons] at hnd
          intro x hx hxe
          apply hnd.1
          rw [← hxe]
          exact List.mem_map_of_mem _ hx
        rw [initPerf_foldl_notin rest _ p.id hnot]
        simp
      · have hnd' : (rest.map DeliveryPerson.id).Nodup := by
          rw [List.map_cons, List.nodup_cons] at hnd
          exact hnd.2
        exact ih _ hnd' hpr

/-- The function `initPerf` maps each roster member's id to its zero entry. -/
theorem initPerf_apply (people : List DeliveryPerson) (p : DeliveryPerson)
    (hnd : (people.map DeliveryPerson.id).Nodup) (hp : p ∈ people) :
    initPerf people p.id =
      some { gains := 0, delivered := 0, returned := 0, name := p.name } := by
  unfold initPerf
  exact initPerf_foldl_mem people _ p hnd hp

/-- Over an engine-shaped collection, summing handled counts and value over
the counted batches of a courier equals summing them over all of that
courier's finalized batches: an excluded finalized batch has a zero
`totalValue`, which forces all its handled counts to zero. -/
theorem sums_counted_eq_finalized (k : String) (l : List Batch)
    (hwf : WellFormedBatches l) :
    sumOver (courierCounted k) batchTotalValue l =
      sumOver (courierFinalized k) batchTotalValue l ∧
    sumOver (courierCounted k) batchDelivered l =
      sumOver (courierFinalized k) batchDelivered l ∧
    sumOver (courierCounted k) batchReturned l =
      sumOver (courierFinalized k) batchReturned l := by
  induction l with
  | nil => exact ⟨rfl, rfl, rfl⟩
  | cons b l ih =>
      have hwf' : WellFormedBatches l := fun x hx => hwf x (List.mem_cons_of_mem _ hx)
      obtain ⟨h1, h2, h3⟩ := ih hwf'
      simp only [sumOver_cons]
      by_cases hcc : courierCounted k b = true
      · have hcf : courierFinalized k b = true := by
          unfold courierCounted aggIncludes at hcc
          unfold courierFinalized isFinalizedBatch
          simp only [Bool.and_eq_true, decide_eq_true_eq] at hcc ⊢
          exact ⟨hcc.1.1, hcc.2⟩
        simp [hcc, hcf, h1, h2, h3]
      · by_cases hcf : courierFinalized k b = true
        · have hcf' := hcf
          unfold courierFinalized isFinalizedBatch at hcf'
          simp only [Bool.and_eq_true, decide_eq_true_eq] at hcf'
          obtain ⟨hst, hdp⟩ := hcf'
          obtain ⟨hn1, hn2, hn3, hn4, htv⟩ := hwf b (List.mem_cons_self _ _) hst
          have htruthy : isTruthyNum b.totalValue = false := by
            cases hb : isTruthyNum b.totalValue with
            | false => rfl
            | true =>
                exfalso
                apply hcc
                unfold courierCounted aggIncludes
                rw [hb]
                rw [hdp]
                simp [hst]
          rw [htv] at htruthy
          unfold isTruthyNum at htruthy
          rw [bne_eq_false_iff_eq] at htruthy
          have hS : b.pgfnDelivered.getD 0 + b.pgfnReturned.getD 0 +
              b.normalDelivered.getD 0 + b.normalReturned.getD 0 = 0 := by
            norm_num [DELIVERY_FEE] at htruthy
            omega
          have hd0 : batchDelivered b = 0 := by
            unfold batchDelivered
            omega
          have hr0 : batchReturned b = 0 := by
            unfold batchReturned
            omega
          have ht0 : batchTotalValue b = 0 := by
            unfold batchTotalValue
            rw [htv]
            rw [Option.getD_some]
            norm_num [DELIVERY_FEE]
            omega
          simp [hcc, hcf, h1, h2, h3, hd0, hr0, ht0]
        · simp [hcc, hcf, h1, h2, h3]

/-- Counterexample to C6: the aggregation loop requires `batch.totalValue` to
be truthy, so the finalized all-absent example batch (conservation-respecting
and engine-shaped, with `totalValue = 0`) is excluded from the system summary:
its absent count of 2 is dropped, contradicting the claim that no finalized
batch in the input set is excluded from the sums. -/
theorem summary_skips_zero_value_batch :
    (computeSummaryPerformance [exAllAbsent] []).1 ≠ summaryOfFinalized [exAllAbsent] ∧
    conserved exAllAbsent ∧ WellFormedBatches [exAllAbsent] := by decide

/-- Claim C6 amended: the system summary equals the sums of total value,
delivered, returned and absent counts taken over the finalized batches of the
input set whose stored `totalValue` is present and nonzero (truthy); finalized
batches with a zero or absent `totalValue` are excluded. -/
theorem summary_counts_truthy_batches (batches : List Batch)
    (people : List DeliveryPerson) :
    (computeSummaryPerformance batches people).1 = summaryOfCounted batches := by
  unfold computeSummaryPerformance summaryOfCounted
  rw [foldAgg_fst]
  simp

/-- Claim C7: over any engine-shaped input collection (finalized batches
carry non-negative handled counts and the derived `totalValue`), the
per-courier summary holds an entry for every known courier (ids being unique)
whose payable value, delivered count and returned count are the sums of those
fields over exactly that courier's finalized batches in the input set;
couriers with no matching batches get the zero-valued entry. -/
theorem per_courier_totals (batches : List Batch)
    (people : List DeliveryPerson) (p : DeliveryPerson)
    (hp : p ∈ people) (hnd : (people.map DeliveryPerson.id).Nodup)
    (hwf : WellFormedBatches batches) :
    (computeSummaryPerformance batches people).2 p.id =
      some (perfEntryOfFinalized p.id p.name batches) := by
  unfold computeSummaryPerformance
  have hinit := initPerf_apply people p hnd hp
  rw [foldAgg_snd_some _ _ _ _ _ hinit]
  obtain ⟨h1, h2, h3⟩ := sums_counted_eq_finalized p.id batches hwf
  unfold perfEntryOfFinalized
  rw [h1, h2, h3]
  simp

/-- Witness for C7: courier p1 accumulates the example batch totals (the
zero-valued all-absent batch contributing nothing), and courier p2, with no
batches, reports the zero entry rather than being absent. -/
theorem per_courier_totals_witness :
    (computeSummaryPerformance [exFinalized, exAllAbsent]
      [exPerson, exPerson2]).2 "p1" =
      some (perfEntryOfFinalized "p1" "Ana" [exFinalized, exAllAbsent]) ∧
    (computeSummaryPerformance [exFinalized, exAllAbsent]
      [exPerson, exPerson2]).2 "p2" =
      some (perfEntryOfFinalized "p2" "Bruno" [exFinalized, exAllAbsent]) := by
  constructor
  · exact per_courier_totals [exFinalized, exAllAbsent] [exPerson, exPerson2]
      exPerson (by decide) (by decide) (by decide)
  · exact per_courier_totals [exFinalized, exAllAbsent] [exPerson, exPerson2]
      exPerson2 (by decide) (by decide) (by decide)

end NotisPro
